import Mathlib

/-!
Verification of `python_package_cleaner`: a shallow embedding of the two
source files (`main.py` and `python_package_cleaner.py`) together with
theorems about the classification pipeline and the interactive uninstall
flow.  External collaborators (the package manager and the dependency-tree
tool) are modelled by their observable inputs and outputs.
-/

namespace PackageCleaner

/-- One element of an entry's `dependencies` list in the pipdeptree JSON
output; the code reads only its `package_name` field. -/
structure Dep where
  package_name : String
deriving DecidableEq, Repr

/-- One entry of the pipdeptree JSON output: a package together with its
list of direct dependencies. -/
structure TreeEntry where
  package_name : String
  dependencies : List Dep
deriving DecidableEq, Repr

/-- Embedding of the inner loop
`for dep in pkg.get("dependencies", []): required_packages.add(dep["package_name"])`
(src/python_package_cleaner.py lines 58-59, src/main.py lines 37-38):
insert every dependency name of one entry into the accumulator set. -/
def addDeps (acc : Finset String) (e : TreeEntry) : Finset String :=
  e.dependencies.foldl (fun s d => insert d.package_name s) acc

/-- Embedding of the `required_packages` computation
(src/python_package_cleaner.py lines 56-59, src/main.py lines 35-38):
a Python `set` built by iterating over the tree; `Finset String` models
the Python set. -/
def computeRequiredSet (tree : List TreeEntry) : Finset String :=
  tree.foldl addDeps ∅

lemma mem_addDeps (e : TreeEntry) (acc : Finset String) (a : String) :
    a ∈ addDeps acc e ↔ a ∈ acc ∨ ∃ d ∈ e.dependencies, d.package_name = a := by
  unfold addDeps
  induction e.dependencies generalizing acc with
  | nil => simp
  | cons d l ih =>
      rw [List.foldl_cons, ih]
      simp only [Finset.mem_insert, List.mem_cons]
      constructor
      · rintro (( h | h ) | ⟨x, hx, hxa⟩)
        · exact Or.inr ⟨d, Or.inl rfl, h.symm⟩
        · exact Or.inl h
        · exact Or.inr ⟨x, Or.inr hx, hxa⟩
      · rintro (h | ⟨x, hx | hx, hxa⟩)
        · exact Or.inl (Or.inr h)
        · exact Or.inl (Or.inl (hx ▸ hxa.symm))
        · exact Or.inr ⟨x, hx, hxa⟩

lemma mem_foldl_addDeps (tree : List TreeEntry) (acc : Finset String) (a : String) :
    a ∈ tree.foldl addDeps acc ↔
      a ∈ acc ∨ ∃ e ∈ tree, ∃ d ∈ e.dependencies, d.package_name = a := by
  induction tree generalizing acc with
  | nil => simp
  | cons e t ih =>
      rw [List.foldl_cons, ih, mem_addDeps]
      simp only [List.mem_cons]
      constructor
      · rintro ((h | h) | ⟨x, hx, hd⟩)
        · exact Or.inl h
        · exact Or.inr ⟨e, Or.inl rfl, h⟩
        · exact Or.inr ⟨x, Or.inr hx, hd⟩
      · rintro (h | ⟨x, hx | hx, hd⟩)
        · exact Or.inl (Or.inl h)
        · exact Or.inl (Or.inr (hx ▸ hd))
        · exact Or.inr ⟨x, hx, hd⟩

/-- Membership characterisation of the required set. -/
lemma mem_computeRequiredSet (tree : List TreeEntry) (a : String) :
    a ∈ computeRequiredSet tree ↔
      ∃ e ∈ tree, ∃ d ∈ e.dependencies, d.package_name = a := by
  rw [computeRequiredSet, mem_foldl_addDeps]
  simp

/-- Two tree entries that carry the same package name and dependency lists
that are permutations of each other. -/
def EntryEquiv (e e' : TreeEntry) : Prop :=
  e.package_name = e'.package_name ∧ e.dependencies.Perm e'.dependencies

/-- `tree'` is obtained from `tree` by reordering each entry's dependency
list and then reordering the entries themselves. -/
def TreeReorder (tree tree' : List TreeEntry) : Prop :=
  ∃ u, List.Forall₂ EntryEquiv tree u ∧ u.Perm tree'

lemma exists_dep_iff_of_entryEquiv {e e' : TreeEntry} (h : EntryEquiv e e') (a : String) :
    (∃ d ∈ e.dependencies, d.package_name = a) ↔
      ∃ d ∈ e'.dependencies, d.package_name = a := by
  constructor
  · rintro ⟨d, hd, hda⟩
    exact ⟨d, h.2.mem_iff.mp hd, hda⟩
  · rintro ⟨d, hd, hda⟩
    exact ⟨d, h.2.mem_iff.mpr hd, hda⟩

lemma exists_entry_iff_of_forall₂ {tree u : List TreeEntry}
    (hf : List.Forall₂ EntryEquiv tree u) (a : String) :
    (∃ e ∈ tree, ∃ d ∈ e.dependencies, d.package_name = a) ↔
      ∃ e ∈ u, ∃ d ∈ e.dependencies, d.package_name = a := by
  induction hf with
  | nil => simp
  | cons heq _ ih =>
      simp only [List.mem_cons]
      constructor
      · rintro ⟨e, he | he, hd⟩
        · exact ⟨_, Or.inl rfl, (exists_dep_iff_of_entryEquiv heq a).mp (he ▸ hd)⟩
        · obtain ⟨e', he', hd'⟩ := ih.mp ⟨e, he, hd⟩
          exact ⟨e', Or.inr he', hd'⟩
      · rintro ⟨e, he | he, hd⟩
        · exact ⟨_, Or.inl rfl, (exists_dep_iff_of_entryEquiv heq a).mpr (he ▸ hd)⟩
        · obtain ⟨e', he', hd'⟩ := ih.mpr ⟨e, he, hd⟩
          exact ⟨e', Or.inr he', hd'⟩

lemma mem_computeRequiredSet_of_reorder {tree tree' : List TreeEntry}
    (h : TreeReorder tree tree') (a : String) :
    a ∈ computeRequiredSet tree ↔ a ∈ computeRequiredSet tree' := by
  obtain ⟨u, hf, hp⟩ := h
  rw [mem_computeRequiredSet, mem_computeRequiredSet,
    exists_entry_iff_of_forall₂ hf a]
  constructor
  · rintro ⟨e, he, hd⟩
    exact ⟨e, hp.mem_iff.mp he, hd⟩
  · rintro ⟨e, he, hd⟩
    exact ⟨e, hp.mem_iff.mpr he, hd⟩

/-! ## Installed packages and the pip list parser -/

/-- The value stored for one installed package by `get_installed_packages`
(src/python_package_cleaner.py lines 36-42): version and location strings
(location defaults to `""`). -/
structure PkgData where
  version : String
  location : String
deriving DecidableEq, Repr

/-- A JSON object from the package manager's list output, modelled as an
association list of string fields (the fields the code reads are all
strings).  `json.loads` produces a Python dict; field lookup finds the
key's value. -/
structure JsonObj where
  fields : List (String × String)
deriving DecidableEq, Repr

/-- Python `pkg[key]` / `pkg.get(key)`: the value at `key`, if present. -/
def JsonObj.get? (o : JsonObj) (k : String) : Option String :=
  o.fields.lookup k

/-- Python `pkg.get(key, default)`. -/
def JsonObj.getD (o : JsonObj) (k d : String) : String :=
  (o.get? k).getD d

/-- One entry of the dict comprehension in `get_installed_packages`
(src/python_package_cleaner.py lines 36-42): `pkg["name"]` and
`pkg["version"]` raise `KeyError` when absent (modelled as `none`);
the location is `pkg.get("Location", "")` — note the capital `L` in the
source. -/
def parseListEntry (pkg : JsonObj) : Option (String × PkgData) := do
  let n ← pkg.get? "name"
  let v ← pkg.get? "version"
  pure (n, { version := v, location := pkg.getD "Location" "" })

/-- `get_installed_packages` (src/python_package_cleaner.py lines 27-42)
applied to the parsed JSON list: builds the name-keyed mapping (a Python
dict in insertion order, modelled as a list of pairs). -/
def get_installed_packages (packages : List JsonObj) : Option (List (String × PkgData)) :=
  packages.mapM parseListEntry

/-! ## Classification -/

/-- `system_dirs` (src/python_package_cleaner.py line 61). -/
def system_dirs : List String :=
  ["/Library/", "/System/", "/Applications/Xcode.app/"]

/-- `skip_packages` (src/python_package_cleaner.py line 62). -/
def skip_packages : List String :=
  ["pip", "setuptools", "wheel", "pipdeptree"]

/-- `is_system = any(pkg_path.startswith(sd) for sd in system_dirs) or pkg in skip_packages`
(src/python_package_cleaner.py line 67). -/
def is_system (pkg : String) (data : PkgData) : Bool :=
  system_dirs.any (fun sd => data.location.startsWith sd) || skip_packages.contains pkg

/-- The category strings the code writes into `used_by`
(src/python_package_cleaner.py line 68). -/
def systemLabel : String := "system (do not remove)"

def applicationLabel : String := "application"

def requiredLabel : String := "required by another package"

/-- The conditional expression assigning `used_by`
(src/python_package_cleaner.py line 68):
`"system (do not remove)" if is_system else ("application" if pkg not in required_packages else "required by another package")`. -/
def used_by_label (pkg : String) (data : PkgData) (required : Finset String) : String :=
  if is_system pkg data then systemLabel
  else if pkg ∉ required then applicationLabel
  else requiredLabel

/-- The dict stored at `classified[pkg]`
(src/python_package_cleaner.py lines 69-73). -/
structure ClassEntry where
  version : String
  used_by : String
  system : Bool
deriving DecidableEq, Repr

def classEntryFor (required : Finset String) (pkg : String) (data : PkgData) : ClassEntry :=
  { version := data.version
    used_by := used_by_label pkg data required
    system := is_system pkg data }

/-- `classify_packages` (src/python_package_cleaner.py lines 53-74): build
the required set from the dependency tree, then classify every installed
package in iteration order.  The output dict is keyed by the installed
dict's keys, so it is modelled as the list of pairs in the same order. -/
def classify_packages (tree : List TreeEntry) (installed : List (String × PkgData)) :
    List (String × ClassEntry) :=
  let required := computeRequiredSet tree
  installed.map (fun pd => (pd.1, classEntryFor required pd.1 pd.2))

/-- `find_orphans` (src/main.py lines 31-41): the orphan list (installed
names not in the required set, in iteration order) together with the
installed mapping it returns unchanged. -/
def find_orphans (tree : List TreeEntry) (installed : List (String × String)) :
    List String × List (String × String) :=
  let required := computeRequiredSet tree
  ((installed.map Prod.fst).filter (fun p => decide (p ∉ required)), installed)

/-- One full classification run: the output together with the inputs as the
run leaves them.  The source writes only to fresh locals
(`required_packages`, `classified`), so the inputs pass through unchanged. -/
def classify_run (tree : List TreeEntry) (installed : List (String × PkgData)) :
    List (String × ClassEntry) × List TreeEntry × List (String × PkgData) :=
  (classify_packages tree installed, tree, installed)

/-! ## Interactive uninstall -/

/-- Python `str.lower()` (ASCII case folding, which covers every token the
program compares against). -/
def pyLower (s : String) : String :=
  ⟨s.data.map Char.toLower⟩

/-- Python `str.strip()`: drop whitespace from both ends. -/
def pyStrip (s : String) : String :=
  ⟨((s.data.dropWhile Char.isWhitespace).reverse.dropWhile Char.isWhitespace).reverse⟩

/-- Python `str.split(sep)` for a one-character separator, over the
character list: splitting the empty string yields `[""]`, and separators
delimit (possibly empty) fields. -/
def splitChar (sep : Char) : List Char → List (List Char)
  | [] => [[]]
  | c :: t =>
      if c = sep then [] :: splitChar sep t
      else
        match splitChar sep t with
        | [] => [[c]]
        | h :: r => (c :: h) :: r

/-- Python `s.split(",")`. -/
def pySplitComma (s : String) : List String :=
  (splitChar ',' s.data).map (fun l => String.mk l)

/-- `input(...).strip().lower() == "y"`: the affirmative test used by every
confirmation prompt (src/python_package_cleaner.py lines 99, 110, 127, 131;
src/main.py lines 63, 75, 92, 96). -/
def isAffirm (s : String) : Bool :=
  pyLower (pyStrip s) == "y"

/-- `uninstall_package` (src/python_package_cleaner.py lines 82-85,
src/main.py lines 43-46): runs `pip uninstall <pkg> -y` WITHOUT
`check=True` and discards the returned `CompletedProcess`.  The subprocess
is modelled by an exit-code environment; the call records the invocation
and the code the environment produced. -/
def uninstall_package (exitCode : String → Int) (pkg : String) : String × Int :=
  (pkg, exitCode pkg)

/-- The bulk branch (`option == "1"`, src/python_package_cleaner.py lines
108-113, src/main.py lines 73-78): iterate the orphan list in display
order, read one confirmation per package, uninstall only on the
affirmative token.  Returns the uninstall invocations in order. -/
def bulkUninstalls (orphans : List String) (answers : List String) : List String :=
  (orphans.zip answers).filterMap (fun pa => if isAffirm pa.2 then some pa.1 else none)

/-- The bulk branch together with each invocation's subprocess exit code
(which the code never inspects). -/
def bulkUninstallResults (orphans : List String) (answers : List String)
    (exitCode : String → Int) : List (String × Int) :=
  (orphans.zip answers).filterMap
    (fun pa => if isAffirm pa.2 then some (uninstall_package exitCode pa.1) else none)

/-- Outcome of one round of the selective loop. -/
inductive RoundOutcome where
  | quit : RoundOutcome
  | retry : RoundOutcome
  | proceed : List String → RoundOutcome
deriving DecidableEq, Repr

def noValidMsg : String := "No valid packages selected. Try again."

/-- One round of the selective branch (`option == "2"`,
src/python_package_cleaner.py lines 116-124, src/main.py lines 81-89):
read a line and strip it; `"q"` (lowercased) quits the loop; otherwise
split on commas, strip each token, and keep the tokens in the orphan list
(`selected = [p.strip() for p in pkg_input.split(",") if p.strip() in orphans]`);
an empty selection prints `noValidMsg` and `continue`s the loop.  Returns
the outcome and the messages printed during selection. -/
def selectiveRound (orphans : List String) (rawInput : String) :
    RoundOutcome × List String :=
  let pkg_input := pyStrip rawInput
  if pyLower pkg_input == "q" then (.quit, [])
  else
    let selected :=
      ((pySplitComma pkg_input).map (fun p => pyStrip p)).filter
        (fun p => orphans.contains p)
    if selected.isEmpty then (.retry, [noValidMsg])
    else (.proceed selected, [])

/-- The orphan list `interactive_uninstall` computes
(src/python_package_cleaner.py line 89): the classified packages whose
`used_by` is `"application"`, in display order. -/
def orphanedOf (classified : List (String × ClassEntry)) : List String :=
  (classified.filter (fun pc => pc.2.used_by == applicationLabel)).map Prod.fst

/-! ## ensure_pipdeptree and the main sequence -/

/-- The externally observable subprocess steps of a run of
src/python_package_cleaner.py's `__main__`. -/
inductive Action where
  | probeVersion : Action
  | installPipdeptree : Action
  | listPackages : Action
  | queryTree : Action
  | classifyStep : Action
deriving DecidableEq, Repr

/-- The outcomes of the two subprocesses `ensure_pipdeptree` may start:
whether `pipdeptree --version` exits zero, and whether
`pip install pipdeptree` exits zero. -/
structure ToolWorld where
  probeOk : Bool
  installOk : Bool
deriving DecidableEq, Repr

/-- `ensure_pipdeptree` (src/python_package_cleaner.py lines 15-25): run
the version probe with `check=True`; on `CalledProcessError`, run the
install with `check=True`, whose own failure raises uncaught.  Returns the
subprocess trace and whether the function returned (versus propagating the
error). -/
def ensure_pipdeptree (w : ToolWorld) : List Action × Bool :=
  if w.probeOk then ([.probeVersion], true)
  else ([.probeVersion, .installPipdeptree], w.installOk)

/-- The `__main__` sequence (src/python_package_cleaner.py lines 137-143):
`ensure_pipdeptree()` runs first; only when it returns does the run list
the installed packages, query the dependency tree and classify. -/
def main_trace (w : ToolWorld) : List Action × Bool :=
  let eo := ensure_pipdeptree w
  if eo.2 then (eo.1 ++ [.listPackages, .queryTree, .classifyStep], true)
  else (eo.1, false)

/-! ## Concrete data used by the claim witnesses -/

/-- Concrete dependency tree used by the claim witnesses. -/
def treeA : List TreeEntry :=
  [⟨"A", [⟨"B"⟩, ⟨"C"⟩]⟩, ⟨"D", [⟨"B"⟩]⟩]

/-- `treeA` with the first entry's dependency list reversed. -/
def treeMid : List TreeEntry :=
  [⟨"A", [⟨"C"⟩, ⟨"B"⟩]⟩, ⟨"D", [⟨"B"⟩]⟩]

/-- `treeMid` with the two entries swapped. -/
def treeB : List TreeEntry :=
  [⟨"D", [⟨"B"⟩]⟩, ⟨"A", [⟨"C"⟩, ⟨"B"⟩]⟩]

/-- A tree in which `pip` is a dependency of another package. -/
def treeDep : List TreeEntry :=
  [⟨"A", [⟨"pip"⟩]⟩]

/-- Concrete installed mapping used by the C2 witness: `pip` is protected
and also depended upon (by `treeDep`), yet classifies as `System`. -/
def instC2 : List (String × PkgData) :=
  [("pip", ⟨"23.0", "/usr/lib/python3/site-packages"⟩)]

/-- Concrete two-package installed mapping used by the C3 witness. -/
def instC3 : List (String × PkgData) :=
  [("pip", ⟨"23.0", "/usr/lib/python3/site-packages"⟩),
   ("left", ⟨"1.0", "/home/u/.venv/lib"⟩)]

/-- The JSON object pip's verbose list output produces for one package:
its location field is spelled `location` in lower case. -/
def c4Input : JsonObj :=
  ⟨[("name", "requests"), ("version", "2.31.0"),
    ("location", "/Library/Python/3.9/site-packages")]⟩

/-- Concrete installed mapping (name to version) used for `find_orphans`
witnesses. -/
def instMain : List (String × String) :=
  [("A", "1.0"), ("B", "2.0")]

/-! ## Helper lemmas -/

lemma lookup_isSome_of_mem_keys {β : Type} (l : List (String × β)) (p : String)
    (h : p ∈ l.map Prod.fst) : (l.lookup p).isSome = true := by
  induction l with
  | nil => simp at h
  | cons x t ih =>
      simp only [List.map_cons, List.mem_cons] at h
      rcases h with h | h
      · simp [List.lookup, h]
      · by_cases hpx : p == x.1
        · simp [List.lookup, hpx]
        · simp [List.lookup, hpx, ih h]

lemma bulkUninstalls_subset (orphans answers : List String) :
    ∀ p ∈ bulkUninstalls orphans answers, p ∈ orphans := by
  intro p hp
  simp only [bulkUninstalls, List.mem_filterMap] at hp
  obtain ⟨pa, hpa, hif⟩ := hp
  by_cases h : isAffirm pa.2
  · simp only [h, if_pos, Option.some.injEq] at hif
    exact hif ▸ (List.of_mem_zip hpa).1
  · simp [h] at hif

lemma selectiveRound_proceed_subset (orphans : List String) (rawInput : String)
    (s : List String) (h : (selectiveRound orphans rawInput).1 = RoundOutcome.proceed s) :
    ∀ p ∈ s, p ∈ orphans := by
  intro p hp
  dsimp only [selectiveRound] at h
  split at h
  · simp at h
  · split at h
    · simp at h
    · dsimp only at h
      simp only [RoundOutcome.proceed.injEq] at h
      subst h
      simpa using (List.mem_filter.mp hp).2

lemma mem_orphanedOf {c : List (String × ClassEntry)} {p : String} :
    p ∈ orphanedOf c ↔ ∃ e, (p, e) ∈ c ∧ e.used_by = applicationLabel := by
  simp only [orphanedOf, List.mem_map, List.mem_filter]
  constructor
  · rintro ⟨pc, ⟨hmem, hlab⟩, hfst⟩
    refine ⟨pc.2, ?_, by simpa using hlab⟩
    rw [← hfst]
    exact hmem
  · rintro ⟨e, hmem, hlab⟩
    exact ⟨(p, e), ⟨hmem, by simpa using hlab⟩, rfl⟩

lemma eq_of_mem_of_nodup_keys {β : Type} {l : List (String × β)}
    (hnd : (l.map Prod.fst).Nodup) {p : String} {e e' : β}
    (h : (p, e) ∈ l) (h' : (p, e') ∈ l) : e = e' := by
  induction l with
  | nil => simp at h
  | cons x t ih =>
      simp only [List.map_cons, List.nodup_cons] at hnd
      rcases List.mem_cons.mp h with rfl | h
      · rcases List.mem_cons.mp h' with h' | h'
        · exact (congrArg Prod.snd h').symm
        · exact absurd (List.mem_map.mpr ⟨_, h', rfl⟩) hnd.1
      · rcases List.mem_cons.mp h' with h' | h'
        · exact absurd (List.mem_map.mpr ⟨_, h, h' ▸ rfl⟩) hnd.1
        · exact ih hnd.2 h h'

/-! ## C1 -/

/-- **C1**: `computeRequiredSet(T)` is exactly the set of distinct
`package_name` values appearing anywhere in the dependency lists of `T`'s
entries — every such name is a member, no other name is, the underlying
multiset has no duplicates, and the result is invariant under reordering
`T`'s entries or any entry's dependency list. -/
theorem claim_C1_computeRequiredSet_exact (tree tree' : List TreeEntry)
    (h : TreeReorder tree tree') :
    (∀ a, a ∈ computeRequiredSet tree ↔
        ∃ e ∈ tree, ∃ d ∈ e.dependencies, d.package_name = a)
    ∧ (computeRequiredSet tree).val.Nodup
    ∧ computeRequiredSet tree = computeRequiredSet tree' :=
  ⟨fun a => mem_computeRequiredSet tree a, (computeRequiredSet tree).nodup,
    Finset.ext fun a => mem_computeRequiredSet_of_reorder h a⟩

/-- Witness for C1 at `treeA`/`treeB`. -/
theorem claim_C1_witness :
    (∀ a, a ∈ computeRequiredSet treeA ↔
        ∃ e ∈ treeA, ∃ d ∈ e.dependencies, d.package_name = a)
    ∧ (computeRequiredSet treeA).val.Nodup
    ∧ computeRequiredSet treeA = computeRequiredSet treeB :=
  claim_C1_computeRequiredSet_exact treeA treeB
    ⟨treeMid,
      List.Forall₂.cons ⟨rfl, by decide⟩
        (List.Forall₂.cons ⟨rfl, by decide⟩ List.Forall₂.nil),
      by decide⟩

/-! ## C2 and C3 -/

lemma used_by_label_of_system {p : String} {d : PkgData} {required : Finset String}
    (h : is_system p d = true) : used_by_label p d required = systemLabel := by
  simp [used_by_label, h]

lemma used_by_label_of_required {p : String} {d : PkgData} {required : Finset String}
    (h : is_system p d = false) (hr : p ∈ required) :
    used_by_label p d required = requiredLabel := by
  simp [used_by_label, h, hr]

lemma used_by_label_of_application {p : String} {d : PkgData} {required : Finset String}
    (h : is_system p d = false) (hr : p ∉ required) :
    used_by_label p d required = applicationLabel := by
  simp [used_by_label, h, hr]

lemma used_by_label_cases (p : String) (d : PkgData) (required : Finset String) :
    used_by_label p d required = systemLabel
      ∨ used_by_label p d required = requiredLabel
      ∨ used_by_label p d required = applicationLabel := by
  unfold used_by_label
  split
  · exact Or.inl rfl
  · split
    · exact Or.inr (Or.inr rfl)
    · exact Or.inr (Or.inl rfl)

lemma labels_distinct :
    systemLabel ≠ requiredLabel ∧ systemLabel ≠ applicationLabel
      ∧ requiredLabel ≠ applicationLabel := by
  refine ⟨?_, ?_, ?_⟩ <;> decide

lemma is_system_true_iff (p : String) (d : PkgData) :
    is_system p d = true ↔
      (∃ sd ∈ system_dirs, d.location.startsWith sd = true) ∨ p ∈ skip_packages := by
  simp [is_system, List.any_eq_true]

lemma classEntryFor_used_by (required : Finset String) (p : String) (d : PkgData) :
    (classEntryFor required p d).used_by = used_by_label p d required := by
  dsimp only [classEntryFor]

lemma classEntryFor_version (required : Finset String) (p : String) (d : PkgData) :
    (classEntryFor required p d).version = d.version := by
  dsimp only [classEntryFor]

/-- **C2**: classification assigns each installed package its category by
the first matching rule System → RequiredByOther → Application: `System`
iff its location starts with a configured system-path prefix or its name
is one of `{pip, setuptools, wheel, pipdeptree}` (so a protected package
that is also required is still `System`); otherwise `RequiredByOther` iff
its name is in the required set; otherwise `Application`. -/
theorem claim_C2_first_matching_rule (tree : List TreeEntry)
    (installed : List (String × PkgData)) (p : String) (d : PkgData)
    (hmem : (p, d) ∈ installed) :
    (p, classEntryFor (computeRequiredSet tree) p d) ∈ classify_packages tree installed
    ∧ ((classEntryFor (computeRequiredSet tree) p d).used_by = systemLabel ↔
        (∃ sd ∈ system_dirs, d.location.startsWith sd = true) ∨ p ∈ skip_packages)
    ∧ (is_system p d = false →
        ((classEntryFor (computeRequiredSet tree) p d).used_by = requiredLabel ↔
          p ∈ computeRequiredSet tree))
    ∧ (is_system p d = false → p ∉ computeRequiredSet tree →
        (classEntryFor (computeRequiredSet tree) p d).used_by = applicationLabel) := by
  refine ⟨List.mem_map.mpr ⟨(p, d), hmem, rfl⟩, ?_, ?_, ?_⟩
  · rw [← is_system_true_iff p d, classEntryFor_used_by]
    constructor
    · intro hl
      by_contra hns
      have hns' : is_system p d = false := by
        cases h : is_system p d
        · rfl
        · exact absurd h hns
      by_cases hr : p ∈ computeRequiredSet tree
      · rw [used_by_label_of_required hns' hr] at hl
        exact labels_distinct.1 hl.symm
      · rw [used_by_label_of_application hns' hr] at hl
        exact labels_distinct.2.1 hl.symm
    · intro hs
      exact used_by_label_of_system hs
  · intro hns
    rw [classEntryFor_used_by]
    constructor
    · intro hl
      by_contra hr
      rw [used_by_label_of_application hns hr] at hl
      exact labels_distinct.2.2 hl.symm
    · intro hr
      exact used_by_label_of_required hns hr
  · intro hns hr
    rw [classEntryFor_used_by]
    exact used_by_label_of_application hns hr

/-- Witness for C2 at a protected package that is also required. -/
theorem claim_C2_witness :
    ("pip", classEntryFor (computeRequiredSet treeDep) "pip"
        ⟨"23.0", "/usr/lib/python3/site-packages"⟩) ∈ classify_packages treeDep instC2
    ∧ ((classEntryFor (computeRequiredSet treeDep) "pip"
        ⟨"23.0", "/usr/lib/python3/site-packages"⟩).used_by = systemLabel ↔
        (∃ sd ∈ system_dirs,
          (PkgData.mk "23.0" "/usr/lib/python3/site-packages").location.startsWith sd = true)
          ∨ "pip" ∈ skip_packages)
    ∧ (is_system "pip" ⟨"23.0", "/usr/lib/python3/site-packages"⟩ = false →
        ((classEntryFor (computeRequiredSet treeDep) "pip"
          ⟨"23.0", "/usr/lib/python3/site-packages"⟩).used_by = requiredLabel ↔
          "pip" ∈ computeRequiredSet treeDep))
    ∧ (is_system "pip" ⟨"23.0", "/usr/lib/python3/site-packages"⟩ = false →
        "pip" ∉ computeRequiredSet treeDep →
        (classEntryFor (computeRequiredSet treeDep) "pip"
          ⟨"23.0", "/usr/lib/python3/site-packages"⟩).used_by = applicationLabel) :=
  claim_C2_first_matching_rule treeDep instC2 "pip"
    ⟨"23.0", "/usr/lib/python3/site-packages"⟩ (by decide)

lemma classify_keys (tree : List TreeEntry) (installed : List (String × PkgData)) :
    (classify_packages tree installed).map Prod.fst = installed.map Prod.fst := by
  simp [classify_packages]

/-- **C3**: classification is total and exclusive: every key of the
installed mapping appears exactly once as a key of the output (given the
environment's unique-name invariant), and every output entry carries
exactly one of the three category labels (the labels being pairwise
distinct strings). -/
theorem claim_C3_total_exclusive (tree : List TreeEntry)
    (installed : List (String × PkgData))
    (hnd : (installed.map Prod.fst).Nodup) :
    (classify_packages tree installed).map Prod.fst = installed.map Prod.fst
    ∧ (∀ p ∈ installed.map Prod.fst,
        ((classify_packages tree installed).map Prod.fst).count p = 1)
    ∧ (∀ pc ∈ classify_packages tree installed,
        pc.2.used_by = systemLabel ∨ pc.2.used_by = requiredLabel
          ∨ pc.2.used_by = applicationLabel)
    ∧ (systemLabel ≠ requiredLabel ∧ systemLabel ≠ applicationLabel
        ∧ requiredLabel ≠ applicationLabel) := by
  refine ⟨classify_keys tree installed, ?_, ?_, labels_distinct⟩
  · intro p hp
    rw [classify_keys]
    exact List.count_eq_one_of_mem hnd hp
  · intro pc hpc
    obtain ⟨pd, _, rfl⟩ := List.mem_map.mp hpc
    dsimp only
    rw [classEntryFor_used_by]
    exact used_by_label_cases pd.1 pd.2 (computeRequiredSet tree)

/-- Witness for C3 at a two-package installed mapping. -/
theorem claim_C3_witness :
    (classify_packages treeDep instC3).map Prod.fst = instC3.map Prod.fst
    ∧ (∀ p ∈ instC3.map Prod.fst,
        ((classify_packages treeDep instC3).map Prod.fst).count p = 1)
    ∧ (∀ pc ∈ classify_packages treeDep instC3,
        pc.2.used_by = systemLabel ∨ pc.2.used_by = requiredLabel
          ∨ pc.2.used_by = applicationLabel)
    ∧ (systemLabel ≠ requiredLabel ∧ systemLabel ≠ applicationLabel
        ∧ requiredLabel ≠ applicationLabel) :=
  claim_C3_total_exclusive treeDep instC3 (by decide)

/-! ## C4 -/

/-- **C4** (code bug): the claim says the parsed entry's location equals
the object's location field when present and `""` when absent; but the
source looks up the key `"Location"` (capital `L`,
src/python_package_cleaner.py line 39) while the package manager's verbose
JSON list output spells the field `"location"` (as the spec's §6 records:
"optionally a location field").  Evaluating the embedded parser at an
object carrying a lower-case `location` field shows the field's value is
dropped and the location comes back `""`, so the system-path
classification can never fire on real output. -/
theorem claim_C4_location_key_mismatch :
    get_installed_packages [c4Input]
        = some [("requests", { version := "2.31.0", location := "" })]
    ∧ c4Input.get? "location" = some "/Library/Python/3.9/site-packages"
    ∧ c4Input.get? "Location" = none := by
  refine ⟨?_, ?_, ?_⟩ <;> rfl

/-! ## C5 -/

/-- **C5**: classification is idempotent and side-effect free: the run’s
only writes are to fresh locals, so the embedded run returns its inputs
unchanged, and a second run on the state the first run leaves behind
produces the identical output; the same holds for `find_orphans`. -/
theorem claim_C5_idempotent_no_mutation (tree : List TreeEntry)
    (installed : List (String × PkgData)) (installedM : List (String × String)) :
    (classify_run (classify_run tree installed).2.1 (classify_run tree installed).2.2).1
        = (classify_run tree installed).1
    ∧ (classify_run tree installed).2.1 = tree
    ∧ (classify_run tree installed).2.2 = installed
    ∧ (find_orphans tree (find_orphans tree installedM).2).1
        = (find_orphans tree installedM).1
    ∧ (find_orphans tree installedM).2 = installedM :=
  ⟨rfl, rfl, rfl, rfl, rfl⟩

/-! ## C6 -/

/-- **C6**: in bulk mode over two orphans `X`, `Y` in display order, an
affirmative answer for `X` and a non-affirmative one for `Y` produce
exactly one uninstall invocation, for `X`; the affirmative token is
exactly the single character `"y"` after stripping and lowercasing. -/
theorem claim_C6_bulk_one_of_two (X Y aX aY : String)
    (hX : pyLower (pyStrip aX) = "y") (hY : pyLower (pyStrip aY) ≠ "y") :
    bulkUninstalls [X, Y] [aX, aY] = [X]
    ∧ (∀ s, isAffirm s = true ↔ pyLower (pyStrip s) = "y") := by
  have h1 : isAffirm aX = true := by simp [isAffirm, hX]
  have h2 : isAffirm aY = false := by simp [isAffirm, hY]
  refine ⟨?_, fun s => ?_⟩
  · simp [bulkUninstalls, h1, h2]
  · simp [isAffirm]

/-- Witness for C6: the answer `" Y "` strips and lowercases to `"y"`,
`"n"` does not. -/
theorem claim_C6_witness :
    bulkUninstalls ["X", "Y"] [" Y ", "n"] = ["X"]
    ∧ (∀ s, isAffirm s = true ↔ pyLower (pyStrip s) = "y") :=
  claim_C6_bulk_one_of_two "X" "Y" " Y " "n" (by decide) (by decide)

/-! ## C7 -/

/-- **C7**: in a selective round whose input is not the quit token,
(1) whatever selection the round proceeds with lies inside the orphan set
(entered names outside it are discarded), (2) if every entered token is
outside the orphan set the round prints exactly the fixed
"no valid packages" message and re-prompts (`retry`, not `quit`), and
(3) the selection phase never prints any other message — in particular no
per-name report of the discarded names. -/
theorem claim_C7_selective_round (orphans : List String) (rawInput : String)
    (hq : pyLower (pyStrip rawInput) ≠ "q") :
    (∀ s, (selectiveRound orphans rawInput).1 = RoundOutcome.proceed s →
        ∀ p ∈ s, p ∈ orphans)
    ∧ ((∀ p ∈ (pySplitComma (pyStrip rawInput)).map (fun p => pyStrip p), p ∉ orphans) →
        selectiveRound orphans rawInput = (RoundOutcome.retry, [noValidMsg]))
    ∧ ((selectiveRound orphans rawInput).2 = []
        ∨ (selectiveRound orphans rawInput).2 = [noValidMsg]) := by
  have hq' : (pyLower (pyStrip rawInput) == "q") = false := by
    simp [hq]
  refine ⟨fun s hs => selectiveRound_proceed_subset orphans rawInput s hs, ?_, ?_⟩
  · intro hinv
    have hfilter : ((pySplitComma (pyStrip rawInput)).map (fun p => pyStrip p)).filter
        (fun p => orphans.contains p) = [] := by
      rw [List.filter_eq_nil_iff]
      intro a ha
      simpa using hinv a ha
    simp only [selectiveRound, hq', Bool.false_eq_true, if_false, hfilter,
      List.isEmpty_nil, if_true]
  · dsimp only [selectiveRound]
    split
    · exact Or.inl rfl
    · split
      · exact Or.inr rfl
      · exact Or.inl rfl

/-- Witness for C7: the only orphan is `"A"` and the user enters
`"B, C"`. -/
theorem claim_C7_witness :
    (∀ s, (selectiveRound ["A"] "B, C").1 = RoundOutcome.proceed s →
        ∀ p ∈ s, p ∈ ["A"])
    ∧ ((∀ p ∈ (pySplitComma (pyStrip "B, C")).map (fun p => pyStrip p), p ∉ ["A"]) →
        selectiveRound ["A"] "B, C" = (RoundOutcome.retry, [noValidMsg]))
    ∧ ((selectiveRound ["A"] "B, C").2 = []
        ∨ (selectiveRound ["A"] "B, C").2 = [noValidMsg]) :=
  claim_C7_selective_round ["A"] "B, C" (by decide)

/-! ## C8 -/

/-- **C8**: `ensure_pipdeptree` attempts the install exactly when the
version probe fails; with the probe succeeding nothing but the probe runs;
with both the probe and the install failing, the error propagates (the run
does not succeed) and the run stops before listing packages, querying the
tree or classifying. -/
theorem claim_C8_ensure_install_on_probe_failure :
    (∀ w : ToolWorld, w.probeOk = true →
        ensure_pipdeptree w = ([Action.probeVersion], true))
    ∧ (∀ w : ToolWorld, w.probeOk = false →
        (ensure_pipdeptree w).1 = [Action.probeVersion, Action.installPipdeptree]
        ∧ (ensure_pipdeptree w).2 = w.installOk)
    ∧ main_trace ⟨false, false⟩ = ([Action.probeVersion, Action.installPipdeptree], false)
    ∧ Action.listPackages ∉ (main_trace ⟨false, false⟩).1
    ∧ Action.queryTree ∉ (main_trace ⟨false, false⟩).1
    ∧ Action.classifyStep ∉ (main_trace ⟨false, false⟩).1 := by
  refine ⟨fun w h => ?_, fun w h => ?_, by decide, by decide, by decide, by decide⟩
  · simp [ensure_pipdeptree, h]
  · simp [ensure_pipdeptree, h]

/-! ## C9 -/

/-- **C9**: `uninstall_package` is fire-and-forget: the packages the bulk
loop uninstalls are exactly the confirmed ones whatever exit codes the
uninstall subprocesses return, so a failing uninstall is not distinguished
from a successful one and never aborts the remaining confirm-then-uninstall
iterations. -/
theorem claim_C9_fire_and_forget (orphans answers : List String)
    (ec ecOther : String → Int) :
    (bulkUninstallResults orphans answers ec).map Prod.fst
        = bulkUninstalls orphans answers
    ∧ (bulkUninstallResults orphans answers ec).map Prod.fst
        = (bulkUninstallResults orphans answers ecOther).map Prod.fst
    ∧ (∀ p ∈ bulkUninstalls orphans answers,
        (p, ec p) ∈ bulkUninstallResults orphans answers ec) := by
  have key : ∀ f : String → Int,
      (bulkUninstallResults orphans answers f).map Prod.fst
        = bulkUninstalls orphans answers := by
    intro f
    simp only [bulkUninstallResults, bulkUninstalls, uninstall_package,
      List.map_filterMap]
    congr 1
    funext pa
    by_cases h : isAffirm pa.2 <;> simp [h]
  refine ⟨key ec, (key ec).trans (key ecOther).symm, ?_⟩
  · intro p hp
    simp only [bulkUninstalls, List.mem_filterMap] at hp
    obtain ⟨pa, hpa, hif⟩ := hp
    by_cases h : isAffirm pa.2
    · simp only [h, if_pos, Option.some.injEq] at hif
      subst hif
      simp only [bulkUninstallResults, List.mem_filterMap]
      exact ⟨pa, hpa, by simp [h, uninstall_package]⟩
    · simp [h] at hif

/-! ## C10 -/

/-- **C10**: every name either flow passes to `uninstall_package` is a
member of the orphaned (application-category) list, which is a subset of
the classified mapping's keys, so the version lookups in the confirmation
prompts always succeed; and (given the environment's unique-name
invariant) every orphan's classification entry is `application` — never
the system or required-by-another category.  Likewise `find_orphans`'s
orphans are keys of the installed mapping. -/
theorem claim_C10_uninstall_safety (tree : List TreeEntry)
    (installed : List (String × PkgData)) (installedM : List (String × String))
    (answers sAnswers : List String) (rawInput : String)
    (hnd : (installed.map Prod.fst).Nodup) :
    (∀ p ∈ orphanedOf (classify_packages tree installed),
        p ∈ (classify_packages tree installed).map Prod.fst
        ∧ ((classify_packages tree installed).lookup p).isSome = true)
    ∧ (∀ p ∈ bulkUninstalls (orphanedOf (classify_packages tree installed)) answers,
        p ∈ orphanedOf (classify_packages tree installed))
    ∧ (∀ s, (selectiveRound (orphanedOf (classify_packages tree installed)) rawInput).1
          = RoundOutcome.proceed s →
        ∀ p ∈ bulkUninstalls s sAnswers,
          p ∈ orphanedOf (classify_packages tree installed))
    ∧ (∀ p ∈ orphanedOf (classify_packages tree installed),
        ∀ e, (p, e) ∈ classify_packages tree installed →
          e.used_by = applicationLabel ∧ e.used_by ≠ systemLabel
            ∧ e.used_by ≠ requiredLabel)
    ∧ (∀ p ∈ (find_orphans tree installedM).1,
        p ∈ installedM.map Prod.fst ∧ (installedM.lookup p).isSome = true) := by
  have hndc : ((classify_packages tree installed).map Prod.fst).Nodup := by
    rw [classify_keys]
    exact hnd
  refine ⟨?_, bulkUninstalls_subset _ answers, ?_, ?_, ?_⟩
  · intro p hp
    obtain ⟨e, he, _⟩ := mem_orphanedOf.mp hp
    have hk : p ∈ (classify_packages tree installed).map Prod.fst :=
      List.mem_map.mpr ⟨(p, e), he, rfl⟩
    exact ⟨hk, lookup_isSome_of_mem_keys _ p hk⟩
  · intro s hs p hp
    exact selectiveRound_proceed_subset _ rawInput s hs p
      (bulkUninstalls_subset s sAnswers p hp)
  · intro p hp e he
    obtain ⟨e0, he0, hlab0⟩ := mem_orphanedOf.mp hp
    have heq : e.used_by = applicationLabel := by
      rw [eq_of_mem_of_nodup_keys hndc he he0]
      exact hlab0
    refine ⟨heq, ?_, ?_⟩
    · rw [heq]
      exact fun h => labels_distinct.2.1 h.symm
    · rw [heq]
      exact fun h => labels_distinct.2.2 h.symm
  · intro p hp
    dsimp only [find_orphans] at hp
    have hk : p ∈ installedM.map Prod.fst := (List.mem_filter.mp hp).1
    exact ⟨hk, lookup_isSome_of_mem_keys _ p hk⟩

/-- Witness for C10 at a concrete tree and installed mapping. -/
theorem claim_C10_witness :
    (∀ p ∈ orphanedOf (classify_packages treeDep instC3),
        p ∈ (classify_packages treeDep instC3).map Prod.fst
        ∧ ((classify_packages treeDep instC3).lookup p).isSome = true)
    ∧ (∀ p ∈ bulkUninstalls (orphanedOf (classify_packages treeDep instC3)) ["y"],
        p ∈ orphanedOf (classify_packages treeDep instC3))
    ∧ (∀ s, (selectiveRound (orphanedOf (classify_packages treeDep instC3)) "left").1
          = RoundOutcome.proceed s →
        ∀ p ∈ bulkUninstalls s ["y"],
          p ∈ orphanedOf (classify_packages treeDep instC3))
    ∧ (∀ p ∈ orphanedOf (classify_packages treeDep instC3),
        ∀ e, (p, e) ∈ classify_packages treeDep instC3 →
          e.used_by = applicationLabel ∧ e.used_by ≠ systemLabel
            ∧ e.used_by ≠ requiredLabel)
    ∧ (∀ p ∈ (find_orphans treeDep instMain).1,
        p ∈ instMain.map Prod.fst ∧ (instMain.lookup p).isSome = true) :=
  claim_C10_uninstall_safety treeDep instC3 instMain ["y"] ["y"] "left" (by decide)

end PackageCleaner
